import Mathlib

/-!
# Verification of the ZIP archive encoder (`src/zip_scripts.js`, `createZIP`)

Shallow embedding of the archive-assembly pipeline: the CRC-32 checksum
engine (`calcCRC32`), the little-endian fixed-field writers (`write4B`,
`write2B`), entry normalization, and the three-phase build (`createZIP`)
that emits local file headers, the central directory, and the
end-of-central-directory record.

Modelling conventions:
* bytes are `Nat` (kept below 256 where the source guarantees it);
* buffers (`ArrayBuffer` + `Uint8Array` views) are `List Nat`, freshly
  allocated ones are all-zero as in JavaScript;
* entry names are modelled as byte sequences (the spec's data model for
  `name`), so `name.length` is the byte length;
* JavaScript 32-bit coercions are reflected by the very same mask/shift
  expressions the source uses, over `Nat`.
-/

namespace ZipTool

/-- One iteration count of the inner CRC loop: `j` remaining rounds of
`b = (c ^ crc) & 1; crc >>>= 1; if (b) crc ^= 0xEDB88320; c >>>= 1`. -/
def crcRound : Nat → Nat × Nat → Nat × Nat
  | 0, p => p
  | j + 1, (crc, c) =>
      let b := (c ^^^ crc) &&& 1
      let crc1 := crc >>> 1
      let crc2 := if b = 1 then crc1 ^^^ 0xEDB88320 else crc1
      crcRound j (crc2, c >>> 1)

/-- `calcCRC32` from the source: register starts at `0xFFFFFFFF`, each input
byte drives 8 inner rounds, and the result is `~crc >>> 0`, i.e. the 32-bit
one's complement of the final register. -/
def calcCRC32 (data : List Nat) : Nat :=
  (data.foldl (fun crc byte => (crcRound 8 (crc, byte)).1) 0xFFFFFFFF) ^^^ 0xFFFFFFFF

/-- Reference reflected CRC-32, following the spec's words: XOR the byte
into the low 8 bits of the register, then 8 shift/conditional-XOR rounds. -/
def crc32Ref_round : Nat → Nat → Nat
  | 0, r => r
  | j + 1, r =>
      crc32Ref_round j (if r &&& 1 = 1 then (r >>> 1) ^^^ 0xEDB88320 else r >>> 1)

/-- Reference reflected CRC-32 with polynomial `0xEDB88320`
(spec formulation, used to compare with the source's `calcCRC32`). -/
def crc32Ref (data : List Nat) : Nat :=
  (data.foldl (fun r byte => crc32Ref_round 8 (r ^^^ byte)) 0xFFFFFFFF) ^^^ 0xFFFFFFFF

/-- `write4B` from the source: four stores of the value's bytes,
least-significant first, at `i`, `i+1`, `i+2`, `i+3`. -/
def write4B (arr : List Nat) (i v : Nat) : List Nat :=
  ((((arr.set i (v &&& 0xFF)).set (i + 1) ((v &&& 0xFF00) >>> 8)).set
    (i + 2) ((v &&& 0xFF0000) >>> 16)).set (i + 3) ((v &&& 0xFF000000) >>> 24))

/-- `write2B` from the source: two stores of the value's low bytes,
least-significant first, at `i`, `i+1`. -/
def write2B (arr : List Nat) (i v : Nat) : List Nat :=
  ((arr.set i (v &&& 0xFF)).set (i + 1) ((v &&& 0xFF00) >>> 8))

/-! ## Bridge lemmas for the mask/shift byte expressions -/

theorem and_shiftRight_distrib (a b i : Nat) :
    (a &&& b) >>> i = (a >>> i) &&& (b >>> i) := by
  apply Nat.eq_of_testBit_eq
  intro j
  simp [Nat.testBit_shiftRight, Nat.testBit_and]

theorem byte0_eq (v : Nat) : v &&& 0xFF = v % 256 := by
  have h : (0xFF : Nat) = 2 ^ 8 - 1 := by norm_num
  rw [h, Nat.and_pow_two_sub_one_eq_mod]

theorem byte1_eq (v : Nat) : (v &&& 0xFF00) >>> 8 = v / 256 % 256 := by
  rw [and_shiftRight_distrib]
  have h : (0xFF00 : Nat) >>> 8 = 0xFF := by decide
  rw [h, byte0_eq, Nat.shiftRight_eq_div_pow]

theorem byte2_eq (v : Nat) : (v &&& 0xFF0000) >>> 16 = v / 65536 % 256 := by
  rw [and_shiftRight_distrib]
  have h : (0xFF0000 : Nat) >>> 16 = 0xFF := by decide
  rw [h, byte0_eq, Nat.shiftRight_eq_div_pow]

theorem byte3_eq (v : Nat) : (v &&& 0xFF000000) >>> 24 = v / 16777216 % 256 := by
  rw [and_shiftRight_distrib]
  have h : (0xFF000000 : Nat) >>> 24 = 0xFF := by decide
  rw [h, byte0_eq, Nat.shiftRight_eq_div_pow]

theorem xor_shiftRight_distrib (a b i : Nat) :
    (a ^^^ b) >>> i = (a >>> i) ^^^ (b >>> i) := by
  apply Nat.eq_of_testBit_eq
  intro j
  simp [Nat.testBit_shiftRight, Nat.testBit_xor]

/-! ## Equivalence of the source CRC loop with the reference formulation -/

theorem crcRound_eq_ref (j : Nat) : ∀ crc c, c < 2 ^ j →
    (crcRound j (crc, c)).1 = crc32Ref_round j (crc ^^^ c) := by
  induction j with
  | zero =>
    intro crc c h
    have hc : c = 0 := Nat.lt_one_iff.mp (by simpa using h)
    subst hc
    simp [crcRound, crc32Ref_round]
  | succ j ih =>
    intro crc c h
    have hc : c >>> 1 < 2 ^ j := by
      rw [Nat.shiftRight_eq_div_pow, pow_one,
        Nat.div_lt_iff_lt_mul (by norm_num : (0 : Nat) < 2)]
      calc c < 2 ^ (j + 1) := h
        _ = 2 ^ j * 2 := by rw [pow_succ]
    have hstep : crcRound (j + 1) (crc, c) =
        crcRound j
          (if (c ^^^ crc) &&& 1 = 1 then (crc >>> 1) ^^^ 0xEDB88320 else crc >>> 1,
           c >>> 1) := rfl
    have hstepR : crc32Ref_round (j + 1) (crc ^^^ c) =
        crc32Ref_round j
          (if (crc ^^^ c) &&& 1 = 1 then ((crc ^^^ c) >>> 1) ^^^ 0xEDB88320
           else (crc ^^^ c) >>> 1) := rfl
    rw [hstep, hstepR, ih _ _ hc, Nat.xor_comm c crc]
    congr 1
    by_cases hb : (crc ^^^ c) &&& 1 = 1
    · rw [if_pos hb, if_pos hb, xor_shiftRight_distrib, Nat.xor_assoc,
        Nat.xor_comm 0xEDB88320, ← Nat.xor_assoc]
    · rw [if_neg hb, if_neg hb, xor_shiftRight_distrib]

theorem crcFold_eq (data : List Nat) : ∀ crc, (∀ b ∈ data, b < 256) →
    data.foldl (fun crc byte => (crcRound 8 (crc, byte)).1) crc
      = data.foldl (fun r byte => crc32Ref_round 8 (r ^^^ byte)) crc := by
  induction data with
  | nil => intro crc _; rfl
  | cons b bs ih =>
    intro crc h
    have hb : b < 2 ^ 8 := by
      have := h b (List.mem_cons_self b bs)
      norm_num
      omega
    have h' : ∀ x ∈ bs, x < 256 := fun x hx => h x (List.mem_cons_of_mem _ hx)
    simp only [List.foldl_cons]
    rw [crcRound_eq_ref 8 crc b hb]
    exact ih _ h'

theorem calcCRC32_eq_ref (data : List Nat) (h : ∀ b ∈ data, b < 256) :
    calcCRC32 data = crc32Ref data := by
  unfold calcCRC32 crc32Ref
  rw [crcFold_eq data _ h]

/-- Byte values (8-bit character codes) of
"The quick brown fox jumps over the lazy dog". -/
def foxBytes : List Nat :=
  [84, 104, 101, 32, 113, 117, 105, 99, 107, 32, 98, 114, 111, 119, 110, 32,
   102, 111, 120, 32, 106, 117, 109, 112, 115, 32, 111, 118, 101, 114, 32,
   116, 104, 101, 32, 108, 97, 122, 121, 32, 100, 111, 103]

example : calcCRC32 [] = 0 := by decide
set_option maxRecDepth 100000 in
example : calcCRC32 foxBytes = 0x414FA339 := by decide

/-! ## Data model and the three-phase builder -/

/-- A caller-supplied entry: `{ name, data }` (name modelled as its bytes). -/
structure FileInput where
  name : List Nat
  data : List Nat
deriving DecidableEq

/-- The object built by the normalization `map` in `createZIP`:
`{ name, data, crc, is_dir, local_header_offset }`. -/
structure FileComplete where
  name : List Nat
  data : List Nat
  crc : Nat
  is_dir : Bool
  local_header_offset : Option Nat
deriving DecidableEq

instance : Inhabited FileComplete :=
  ⟨{ name := [], data := [], crc := 0, is_dir := false, local_header_offset := none }⟩

/-- The source's directory test `file.name[file.name.length - 1] === "/"`
(47 is the code of `/`; an out-of-range index reads as a non-`/` value). -/
def isDirName (name : List Nat) : Bool :=
  name.getD (name.length - 1) 0 == 47

/-- The normalization `map` of `createZIP`: fresh object with `crc`,
`is_dir` derived, and `local_header_offset` still unset (`null`). -/
def normalizeFile (f : FileInput) : FileComplete :=
  { name := f.name
    data := f.data
    crc := calcCRC32 f.data
    is_dir := isDirName f.name
    local_header_offset := none }

/-- The 30-byte local file header built in the phase-1 loop. -/
def localHeader (file : FileComplete) : List Nat :=
  let h := List.replicate 30 0
  let h := write4B h 0 0x04034B50
  let h := write2B h 26 file.name.length
  if file.is_dir then
    h.set 4 20
  else
    let h := h.set 4 10
    let h := write4B h 14 file.crc
    let h := write4B h 18 file.data.length
    write4B h 22 file.data.length

/-- The 46-byte central-directory header built in the phase-2 loop.
`local_header_offset` has been assigned by phase 1 (`getD 0` models the
numeric coercion of an unset field). -/
def centralHeader (file : FileComplete) : List Nat :=
  let h := List.replicate 46 0
  let h := write4B h 0 0x02014B50
  let h := (h.set 4 63).set 5 3
  let h := write2B h 28 file.name.length
  let h := write4B h 42 (file.local_header_offset.getD 0)
  if file.is_dir then
    write2B (h.set 6 20) 40 0o40755
  else
    let h := h.set 6 10
    let h := write4B h 16 file.crc
    let h := write4B h 20 file.data.length
    let h := write4B h 24 file.data.length
    write2B h 40 0o100644

/-- The 22-byte end-of-central-directory record. -/
def endRecord (n cdSize cdOffset : Nat) : List Nat :=
  let h := List.replicate 22 0
  let h := write4B h 0 0x06054B50
  let h := write2B h 8 n
  let h := write2B h 10 n
  let h := write4B h 12 cdSize
  write4B h 16 cdOffset

/-- One iteration of the phase-1 loop: record the running offset into the
entry, push header, name bytes and data bytes, and advance the offset by
each pushed segment's byte length. Accumulator: (output, offset, entries). -/
def phase1Step (acc : List Nat × Nat × List FileComplete) (file : FileComplete) :
    List Nat × Nat × List FileComplete :=
  let header := localHeader file
  let file' := { file with local_header_offset := some acc.2.1 }
  (acc.1 ++ header ++ file.name ++ file.data,
   acc.2.1 + header.length + file.name.length + file.data.length,
   acc.2.2 ++ [file'])

/-- One iteration of the phase-2 loop: push the central header and the name
bytes, advancing the offset by each segment's byte length. -/
def phase2Step (acc : List Nat × Nat) (file : FileComplete) : List Nat × Nat :=
  let header := centralHeader file
  (acc.1 ++ header ++ file.name, acc.2 + header.length + file.name.length)

/-- `createZIP` from the source: normalize, emit local file sections
(phase 1), the central directory (phase 2), and the end-of-central-directory
record, concatenating every pushed segment into one byte sequence. -/
def createZIP (files : List FileInput) : List Nat :=
  let files_complete := files.map normalizeFile
  let p1 := files_complete.foldl phase1Step ([], 0, [])
  let central_dir_offset := p1.2.1
  let p2 := p1.2.2.foldl phase2Step (p1.1, p1.2.1)
  p2.1 ++ endRecord files_complete.length (p2.2 - central_dir_offset) central_dir_offset

/-! ## Analytic descriptions of the build, proved equal to the folds -/

/-- An entry's whole local-file section: header, name bytes, data bytes. -/
def localSeg (f : FileComplete) : List Nat := localHeader f ++ f.name ++ f.data

/-- An entry's whole central-directory section: header and name bytes. -/
def centralSeg (f : FileComplete) : List Nat := centralHeader f ++ f.name

/-- Total byte length of the phase-1 (local file) section of `fs`. -/
def localLen (fs : List FileComplete) : Nat :=
  (fs.map (fun f => 30 + f.name.length + f.data.length)).sum

/-- Total byte length of the phase-2 (central directory) section of `fs`. -/
def centralLen (fs : List FileComplete) : Nat :=
  (fs.map (fun f => 46 + f.name.length)).sum

/-- The offsets phase 1 records: each entry gets the running total, which
then advances by `30 + name length + data length`. -/
def assignOffsets (off : Nat) : List FileComplete → List FileComplete
  | [] => []
  | f :: fs =>
    { f with local_header_offset := some off } ::
      assignOffsets (off + 30 + f.name.length + f.data.length) fs

theorem localHeader_length (f : FileComplete) : (localHeader f).length = 30 := by
  unfold localHeader write4B write2B
  split <;> simp

theorem centralHeader_length (f : FileComplete) : (centralHeader f).length = 46 := by
  unfold centralHeader write4B write2B
  split <;> simp

theorem endRecord_length (n s o : Nat) : (endRecord n s o).length = 22 := by
  simp [endRecord, write4B, write2B]

theorem localLen_cons (f : FileComplete) (fs : List FileComplete) :
    localLen (f :: fs) = 30 + f.name.length + f.data.length + localLen fs := by
  simp [localLen]

theorem centralLen_cons (f : FileComplete) (fs : List FileComplete) :
    centralLen (f :: fs) = 46 + f.name.length + centralLen fs := by
  simp [centralLen]

theorem localSeg_length (f : FileComplete) :
    (localSeg f).length = 30 + f.name.length + f.data.length := by
  simp [localSeg, localHeader_length]
  omega

theorem centralSeg_length (f : FileComplete) :
    (centralSeg f).length = 46 + f.name.length := by
  simp [centralSeg, centralHeader_length]

theorem assignOffsets_length (fs : List FileComplete) : ∀ off,
    (assignOffsets off fs).length = fs.length := by
  induction fs with
  | nil => intro off; rfl
  | cons f fs ih => intro off; simp [assignOffsets, ih]

theorem phase1_foldl (fs : List FileComplete) : ∀ out off done,
    fs.foldl phase1Step (out, off, done) =
      (out ++ (fs.map localSeg).flatten, off + localLen fs,
       done ++ assignOffsets off fs) := by
  induction fs with
  | nil =>
    intro out off done
    simp [localLen, assignOffsets]
  | cons f fs ih =>
    intro out off done
    rw [List.foldl_cons,
      show phase1Step (out, off, done) f =
        (out ++ localHeader f ++ f.name ++ f.data,
         off + (localHeader f).length + f.name.length + f.data.length,
         done ++ [{ f with local_header_offset := some off }]) from rfl,
      ih]
    refine congrArg₂ Prod.mk ?_ (congrArg₂ Prod.mk ?_ ?_)
    · simp [localSeg, List.append_assoc]
    · rw [localHeader_length, localLen_cons]
      omega
    · rw [localHeader_length]
      simp [assignOffsets]

theorem phase2_foldl (fs : List FileComplete) : ∀ out off,
    fs.foldl phase2Step (out, off) =
      (out ++ (fs.map centralSeg).flatten, off + centralLen fs) := by
  induction fs with
  | nil =>
    intro out off
    simp [centralLen]
  | cons f fs ih =>
    intro out off
    rw [List.foldl_cons,
      show phase2Step (out, off) f =
        (out ++ centralHeader f ++ f.name,
         off + (centralHeader f).length + f.name.length) from rfl,
      ih]
    refine congrArg₂ Prod.mk ?_ ?_
    · simp [centralSeg, List.append_assoc]
    · rw [centralHeader_length, centralLen_cons]
      omega

/-- The entry list as it stands after phase 1: normalized entries with their
local-header offsets assigned from a running total starting at 0. -/
def ents (files : List FileInput) : List FileComplete :=
  assignOffsets 0 (files.map normalizeFile)

/-- Closed form of the builder: local sections, then central sections, then
the end record with the exact phase-1 and phase-2 byte counts. -/
theorem createZIP_eq (files : List FileInput) :
    createZIP files =
      ((files.map normalizeFile).map localSeg).flatten
        ++ ((ents files).map centralSeg).flatten
        ++ endRecord files.length (centralLen (ents files))
            (localLen (files.map normalizeFile)) := by
  unfold createZIP
  simp only [phase1_foldl, phase2_foldl]
  simp [ents, List.append_assoc, Nat.add_sub_cancel_left]

/-! ## Field access: little-endian readers and explicit header layouts -/

/-- Read the 2-byte little-endian field starting at `i`. -/
def readU16 (l : List Nat) (i : Nat) : Nat :=
  l.getD i 0 + 256 * l.getD (i + 1) 0

/-- Read the 4-byte little-endian field starting at `i`. -/
def readU32 (l : List Nat) (i : Nat) : Nat :=
  l.getD i 0 + 256 * l.getD (i + 1) 0 + 65536 * l.getD (i + 2) 0
    + 16777216 * l.getD (i + 3) 0

theorem readU32_bytes (v : Nat) (hv : v < 2 ^ 32) :
    v % 256 + 256 * (v / 256 % 256) + 65536 * (v / 65536 % 256)
      + 16777216 * (v / 16777216 % 256) = v := by
  omega

theorem readU16_bytes (v : Nat) (hv : v < 2 ^ 16) :
    v % 256 + 256 * (v / 256 % 256) = v := by
  omega

theorem getD_set_self (l : List Nat) (i v : Nat) (h : i < l.length) :
    (l.set i v).getD i 0 = v := by
  simp [List.getD_eq_getElem?_getD, List.getElem?_set_self h]

theorem getD_set_other (l : List Nat) {i j : Nat} (v : Nat) (h : i ≠ j) :
    (l.set i v).getD j 0 = l.getD j 0 := by
  simp [List.getD_eq_getElem?_getD, List.getElem?_set_ne h]

theorem getD_replicate_zero (n i : Nat) : (List.replicate n (0 : Nat)).getD i 0 = 0 := by
  by_cases h : i < n
  · simp [List.getD_eq_getElem?_getD, List.getElem?_replicate_of_lt h]
  · simp [List.getD_eq_getElem?_getD, List.getElem?_replicate, h]

theorem write4B_length (arr : List Nat) (i v : Nat) :
    (write4B arr i v).length = arr.length := by
  simp [write4B]

theorem write2B_length (arr : List Nat) (i v : Nat) :
    (write2B arr i v).length = arr.length := by
  simp [write2B]

/-! ## Pointwise description of the fixed-field writers -/

theorem write4B_getD_at0 (arr : List Nat) (i v : Nat) (h : i < arr.length) :
    (write4B arr i v).getD i 0 = v % 256 := by
  unfold write4B
  rw [getD_set_other _ _ (by omega), getD_set_other _ _ (by omega),
    getD_set_other _ _ (by omega), getD_set_self _ _ _ h, byte0_eq]

theorem write4B_getD_at1 (arr : List Nat) (i v : Nat) (h : i + 1 < arr.length) :
    (write4B arr i v).getD (i + 1) 0 = v / 256 % 256 := by
  unfold write4B
  rw [getD_set_other _ _ (by omega), getD_set_other _ _ (by omega),
    getD_set_self _ _ _ (by simpa), byte1_eq]

theorem write4B_getD_at2 (arr : List Nat) (i v : Nat) (h : i + 2 < arr.length) :
    (write4B arr i v).getD (i + 2) 0 = v / 65536 % 256 := by
  unfold write4B
  rw [getD_set_other _ _ (by omega), getD_set_self _ _ _ (by simpa), byte2_eq]

theorem write4B_getD_at3 (arr : List Nat) (i v : Nat) (h : i + 3 < arr.length) :
    (write4B arr i v).getD (i + 3) 0 = v / 16777216 % 256 := by
  unfold write4B
  rw [getD_set_self _ _ _ (by simpa), byte3_eq]

theorem write4B_getD_frame (arr : List Nat) (i v j : Nat) (h : j < i ∨ i + 3 < j) :
    (write4B arr i v).getD j 0 = arr.getD j 0 := by
  unfold write4B
  rw [getD_set_other _ _ (by omega), getD_set_other _ _ (by omega),
    getD_set_other _ _ (by omega), getD_set_other _ _ (by omega)]

theorem write2B_getD_at0 (arr : List Nat) (i v : Nat) (h : i < arr.length) :
    (write2B arr i v).getD i 0 = v % 256 := by
  unfold write2B
  rw [getD_set_other _ _ (by omega), getD_set_self _ _ _ h, byte0_eq]

theorem write2B_getD_at1 (arr : List Nat) (i v : Nat) (h : i + 1 < arr.length) :
    (write2B arr i v).getD (i + 1) 0 = v / 256 % 256 := by
  unfold write2B
  rw [getD_set_self _ _ _ (by simpa), byte1_eq]

theorem write2B_getD_frame (arr : List Nat) (i v j : Nat) (h : j < i ∨ i + 1 < j) :
    (write2B arr i v).getD j 0 = arr.getD j 0 := by
  unfold write2B
  rw [getD_set_other _ _ (by omega), getD_set_other _ _ (by omega)]

/-! ## Field readers over the writers -/

theorem readU32_write4B (arr : List Nat) (i v : Nat) (h : i + 3 < arr.length) :
    readU32 (write4B arr i v) i = v % 4294967296 := by
  unfold readU32
  rw [write4B_getD_at0 _ _ _ (by omega), write4B_getD_at1 _ _ _ (by omega),
    write4B_getD_at2 _ _ _ (by omega), write4B_getD_at3 _ _ _ h]
  omega

theorem readU16_write2B (arr : List Nat) (i v : Nat) (h : i + 1 < arr.length) :
    readU16 (write2B arr i v) i = v % 65536 := by
  unfold readU16
  rw [write2B_getD_at0 _ _ _ (by omega), write2B_getD_at1 _ _ _ h]
  omega

theorem readU32_set_frame (l : List Nat) (i v p : Nat) (h : i < p ∨ p + 3 < i) :
    readU32 (l.set i v) p = readU32 l p := by
  unfold readU32
  rw [getD_set_other _ _ (by omega), getD_set_other _ _ (by omega),
    getD_set_other _ _ (by omega), getD_set_other _ _ (by omega)]

theorem readU32_write4B_frame (arr : List Nat) (i v p : Nat)
    (h : i + 3 < p ∨ p + 3 < i) :
    readU32 (write4B arr i v) p = readU32 arr p := by
  unfold readU32
  rw [write4B_getD_frame _ _ _ _ (by omega), write4B_getD_frame _ _ _ _ (by omega),
    write4B_getD_frame _ _ _ _ (by omega), write4B_getD_frame _ _ _ _ (by omega)]

theorem readU32_write2B_frame (arr : List Nat) (i v p : Nat)
    (h : i + 1 < p ∨ p + 3 < i) :
    readU32 (write2B arr i v) p = readU32 arr p := by
  unfold readU32
  rw [write2B_getD_frame _ _ _ _ (by omega), write2B_getD_frame _ _ _ _ (by omega),
    write2B_getD_frame _ _ _ _ (by omega), write2B_getD_frame _ _ _ _ (by omega)]

theorem readU16_set_frame (l : List Nat) (i v p : Nat) (h : i < p ∨ p + 1 < i) :
    readU16 (l.set i v) p = readU16 l p := by
  unfold readU16
  rw [getD_set_other _ _ (by omega), getD_set_other _ _ (by omega)]

theorem readU16_write4B_frame (arr : List Nat) (i v p : Nat)
    (h : i + 3 < p ∨ p + 1 < i) :
    readU16 (write4B arr i v) p = readU16 arr p := by
  unfold readU16
  rw [write4B_getD_frame _ _ _ _ (by omega), write4B_getD_frame _ _ _ _ (by omega)]

theorem readU16_write2B_frame (arr : List Nat) (i v p : Nat)
    (h : i + 1 < p ∨ p + 1 < i) :
    readU16 (write2B arr i v) p = readU16 arr p := by
  unfold readU16
  rw [write2B_getD_frame _ _ _ _ (by omega), write2B_getD_frame _ _ _ _ (by omega)]

theorem readU32_replicate_zero (n p : Nat) : readU32 (List.replicate n 0) p = 0 := by
  unfold readU32
  rw [getD_replicate_zero, getD_replicate_zero, getD_replicate_zero,
    getD_replicate_zero]

theorem readU16_replicate_zero (n p : Nat) : readU16 (List.replicate n 0) p = 0 := by
  unfold readU16
  rw [getD_replicate_zero, getD_replicate_zero]

theorem getD_append_left (l r : List Nat) (i : Nat) (h : i < l.length) :
    (l ++ r).getD i 0 = l.getD i 0 := by
  simp [List.getD_eq_getElem?_getD, List.getElem?_append_left h]

theorem readU32_append_left (l r : List Nat) (p : Nat) (h : p + 3 < l.length) :
    readU32 (l ++ r) p = readU32 l p := by
  unfold readU32
  rw [getD_append_left _ _ _ (by omega), getD_append_left _ _ _ (by omega),
    getD_append_left _ _ _ (by omega), getD_append_left _ _ _ (by omega)]

/-! ## Header fields -/

theorem localHeader_sig (f : FileComplete) :
    readU32 (localHeader f) 0 = 0x04034B50 := by
  unfold localHeader
  by_cases h : f.is_dir = true
  · rw [h, if_pos rfl, readU32_set_frame _ _ _ _ (by omega),
      readU32_write2B_frame _ _ _ _ (by omega),
      readU32_write4B _ _ _ (by simp)]
  · rw [eq_false_of_ne_true h, if_neg (by simp),
      readU32_write4B_frame _ _ _ _ (by omega),
      readU32_write4B_frame _ _ _ _ (by omega),
      readU32_write4B_frame _ _ _ _ (by omega),
      readU32_set_frame _ _ _ _ (by omega),
      readU32_write2B_frame _ _ _ _ (by omega),
      readU32_write4B _ _ _ (by simp)]

theorem localHeader_dir_fields (f : FileComplete) (h : f.is_dir = true) :
    readU32 (localHeader f) 14 = 0 ∧ readU32 (localHeader f) 18 = 0 ∧
      readU32 (localHeader f) 22 = 0 := by
  have e : localHeader f =
      (write2B (write4B (List.replicate 30 0) 0 0x04034B50) 26 f.name.length).set
        4 20 := by
    unfold localHeader
    rw [h, if_pos rfl]
  refine ⟨?_, ?_, ?_⟩ <;>
    rw [e, readU32_set_frame _ _ _ _ (by omega),
      readU32_write2B_frame _ _ _ _ (by omega),
      readU32_write4B_frame _ _ _ _ (by omega), readU32_replicate_zero]

theorem localHeader_file_fields (f : FileComplete) (h : f.is_dir = false) :
    readU32 (localHeader f) 14 = f.crc % 4294967296 ∧
      readU32 (localHeader f) 18 = f.data.length % 4294967296 ∧
      readU32 (localHeader f) 22 = f.data.length % 4294967296 := by
  have e : localHeader f =
      write4B
        (write4B
          (write4B
            ((write2B (write4B (List.replicate 30 0) 0 0x04034B50) 26
                f.name.length).set 4 10)
            14 f.crc)
          18 f.data.length)
        22 f.data.length := by
    unfold localHeader
    rw [h, if_neg (by simp)]
  refine ⟨?_, ?_, ?_⟩
  · rw [e, readU32_write4B_frame _ _ _ _ (by omega),
      readU32_write4B_frame _ _ _ _ (by omega),
      readU32_write4B _ _ _ (by simp [write2B_length, write4B_length])]
  · rw [e, readU32_write4B_frame _ _ _ _ (by omega),
      readU32_write4B _ _ _ (by simp [write2B_length, write4B_length])]
  · rw [e, readU32_write4B _ _ _ (by simp [write2B_length, write4B_length])]

theorem centralHeader_offset_field (f : FileComplete) :
    readU32 (centralHeader f) 42 = f.local_header_offset.getD 0 % 4294967296 := by
  unfold centralHeader
  by_cases h : f.is_dir = true
  · rw [h, if_pos rfl, readU32_write2B_frame _ _ _ _ (by omega),
      readU32_set_frame _ _ _ _ (by omega),
      readU32_write4B _ _ _ (by simp [write2B_length, write4B_length])]
  · rw [eq_false_of_ne_true h, if_neg (by simp),
      readU32_write2B_frame _ _ _ _ (by omega),
      readU32_write4B_frame _ _ _ _ (by omega),
      readU32_write4B_frame _ _ _ _ (by omega),
      readU32_write4B_frame _ _ _ _ (by omega),
      readU32_set_frame _ _ _ _ (by omega),
      readU32_write4B _ _ _ (by simp [write2B_length, write4B_length])]

theorem centralHeader_dir_fields (f : FileComplete) (h : f.is_dir = true) :
    readU32 (centralHeader f) 16 = 0 ∧ readU32 (centralHeader f) 20 = 0 ∧
      readU32 (centralHeader f) 24 = 0 := by
  have e : centralHeader f =
      write2B
        ((write4B
            (write2B
              (((write4B (List.replicate 46 0) 0 0x02014B50).set 4 63).set 5 3)
              28 f.name.length)
            42 (f.local_header_offset.getD 0)).set 6 20)
        40 16877 := by
    unfold centralHeader
    rw [h, if_pos rfl]
  refine ⟨?_, ?_, ?_⟩ <;>
    rw [e, readU32_write2B_frame _ _ _ _ (by omega),
      readU32_set_frame _ _ _ _ (by omega),
      readU32_write4B_frame _ _ _ _ (by omega),
      readU32_write2B_frame _ _ _ _ (by omega),
      readU32_set_frame _ _ _ _ (by omega),
      readU32_set_frame _ _ _ _ (by omega),
      readU32_write4B_frame _ _ _ _ (by omega), readU32_replicate_zero]

theorem centralHeader_extAttrs_dir (f : FileComplete) (h : f.is_dir = true) :
    readU32 (centralHeader f) 38 = 16877 * 65536 ∧
      readU16 (centralHeader f) 38 = 0 := by
  have e : centralHeader f =
      write2B
        ((write4B
            (write2B
              (((write4B (List.replicate 46 0) 0 0x02014B50).set 4 63).set 5 3)
              28 f.name.length)
            42 (f.local_header_offset.getD 0)).set 6 20)
        40 16877 := by
    unfold centralHeader
    rw [h, if_pos rfl]
  have h38 : (centralHeader f).getD 38 0 = 0 := by
    rw [e, write2B_getD_frame _ _ _ _ (by omega), getD_set_other _ _ (by omega),
      write4B_getD_frame _ _ _ _ (by omega), write2B_getD_frame _ _ _ _ (by omega),
      getD_set_other _ _ (by omega), getD_set_other _ _ (by omega),
      write4B_getD_frame _ _ _ _ (by omega), getD_replicate_zero]
  have h39 : (centralHeader f).getD 39 0 = 0 := by
    rw [e, write2B_getD_frame _ _ _ _ (by omega), getD_set_other _ _ (by omega),
      write4B_getD_frame _ _ _ _ (by omega), write2B_getD_frame _ _ _ _ (by omega),
      getD_set_other _ _ (by omega), getD_set_other _ _ (by omega),
      write4B_getD_frame _ _ _ _ (by omega), getD_replicate_zero]
  have h40 : (centralHeader f).getD 40 0 = 237 := by
    rw [e, write2B_getD_at0 _ _ _ (by simp [write2B_length, write4B_length])]
  have h41 : (centralHeader f).getD 41 0 = 65 := by
    have e41 : (41 : Nat) = 40 + 1 := rfl
    rw [e, e41, write2B_getD_at1 _ _ _ (by simp [write2B_length, write4B_length])]
  have r32 : readU32 (centralHeader f) 38 =
      (centralHeader f).getD 38 0 + 256 * (centralHeader f).getD 39 0
        + 65536 * (centralHeader f).getD 40 0
        + 16777216 * (centralHeader f).getD 41 0 := rfl
  have r16 : readU16 (centralHeader f) 38 =
      (centralHeader f).getD 38 0 + 256 * (centralHeader f).getD 39 0 := rfl
  rw [r32, r16, h38, h39, h40, h41]
  norm_num

theorem centralHeader_extAttrs_file (f : FileComplete) (h : f.is_dir = false) :
    readU32 (centralHeader f) 38 = 33188 * 65536 ∧
      readU16 (centralHeader f) 38 = 0 := by
  have e : centralHeader f =
      write2B
        (write4B
          (write4B
            (write4B
              ((write4B
                  (write2B
                    (((write4B (List.replicate 46 0) 0 0x02014B50).set 4 63).set 5 3)
                    28 f.name.length)
                  42 (f.local_header_offset.getD 0)).set 6 10)
              16 f.crc)
            20 f.data.length)
          24 f.data.length)
        40 33188 := by
    unfold centralHeader
    rw [h, if_neg (by simp)]
  have h38 : (centralHeader f).getD 38 0 = 0 := by
    rw [e, write2B_getD_frame _ _ _ _ (by omega),
      write4B_getD_frame _ _ _ _ (by omega), write4B_getD_frame _ _ _ _ (by omega),
      write4B_getD_frame _ _ _ _ (by omega), getD_set_other _ _ (by omega),
      write4B_getD_frame _ _ _ _ (by omega), write2B_getD_frame _ _ _ _ (by omega),
      getD_set_other _ _ (by omega), getD_set_other _ _ (by omega),
      write4B_getD_frame _ _ _ _ (by omega), getD_replicate_zero]
  have h39 : (centralHeader f).getD 39 0 = 0 := by
    rw [e, write2B_getD_frame _ _ _ _ (by omega),
      write4B_getD_frame _ _ _ _ (by omega), write4B_getD_frame _ _ _ _ (by omega),
      write4B_getD_frame _ _ _ _ (by omega), getD_set_other _ _ (by omega),
      write4B_getD_frame _ _ _ _ (by omega), write2B_getD_frame _ _ _ _ (by omega),
      getD_set_other _ _ (by omega), getD_set_other _ _ (by omega),
      write4B_getD_frame _ _ _ _ (by omega), getD_replicate_zero]
  have h40 : (centralHeader f).getD 40 0 = 164 := by
    rw [e, write2B_getD_at0 _ _ _ (by simp [write2B_length, write4B_length])]
  have h41 : (centralHeader f).getD 41 0 = 129 := by
    have e41 : (41 : Nat) = 40 + 1 := rfl
    rw [e, e41, write2B_getD_at1 _ _ _ (by simp [write2B_length, write4B_length])]
  have r32 : readU32 (centralHeader f) 38 =
      (centralHeader f).getD 38 0 + 256 * (centralHeader f).getD 39 0
        + 65536 * (centralHeader f).getD 40 0
        + 16777216 * (centralHeader f).getD 41 0 := rfl
  have r16 : readU16 (centralHeader f) 38 =
      (centralHeader f).getD 38 0 + 256 * (centralHeader f).getD 39 0 := rfl
  rw [r32, r16, h38, h39, h40, h41]
  norm_num

theorem endRecord_fields (n s o : Nat) :
    readU16 (endRecord n s o) 8 = n % 65536 ∧
      readU16 (endRecord n s o) 10 = n % 65536 ∧
      readU32 (endRecord n s o) 12 = s % 4294967296 ∧
      readU32 (endRecord n s o) 16 = o % 4294967296 := by
  have e : endRecord n s o =
      write4B
        (write4B (write2B (write2B (write4B (List.replicate 22 0) 0 0x06054B50) 8 n)
            10 n)
          12 s)
        16 o := by
    unfold endRecord
    rfl
  refine ⟨?_, ?_, ?_, ?_⟩
  · rw [e, readU16_write4B_frame _ _ _ _ (by omega),
      readU16_write4B_frame _ _ _ _ (by omega),
      readU16_write2B_frame _ _ _ _ (by omega),
      readU16_write2B _ _ _ (by simp [write2B_length, write4B_length])]
  · rw [e, readU16_write4B_frame _ _ _ _ (by omega),
      readU16_write4B_frame _ _ _ _ (by omega),
      readU16_write2B _ _ _ (by simp [write2B_length, write4B_length])]
  · rw [e, readU32_write4B_frame _ _ _ _ (by omega),
      readU32_write4B _ _ _ (by simp [write2B_length, write4B_length])]
  · rw [e, readU32_write4B _ _ _ (by simp [write2B_length, write4B_length])]

/-! ## Locating each entry's sections inside the built archive -/

theorem flatten_localSeg_length (gs : List FileComplete) :
    ((gs.map localSeg).flatten).length = localLen gs := by
  induction gs with
  | nil => rfl
  | cons g gs ih =>
    simp only [List.map_cons, List.flatten_cons, List.length_append, ih,
      localSeg_length, localLen_cons]

theorem flatten_centralSeg_length (gs : List FileComplete) :
    ((gs.map centralSeg).flatten).length = centralLen gs := by
  induction gs with
  | nil => rfl
  | cons g gs ih =>
    simp only [List.map_cons, List.flatten_cons, List.length_append, ih,
      centralSeg_length, centralLen_cons]

theorem assignOffsets_getD (fs : List FileComplete) : ∀ off i, i < fs.length →
    (assignOffsets off fs).getD i default =
      { fs.getD i default with
        local_header_offset := some (off + localLen (fs.take i)) } := by
  induction fs with
  | nil =>
    intro off i h
    simp at h
  | cons f fs ih =>
    intro off i h
    cases i with
    | zero =>
      simp [assignOffsets, localLen]
    | succ i =>
      have h' : i < fs.length := by
        rw [List.length_cons] at h
        omega
      simp only [assignOffsets, List.getD_cons_succ, List.take_succ_cons]
      rw [ih _ _ h', localLen_cons]
      have harith : off + 30 + f.name.length + f.data.length + localLen (fs.take i)
          = off + (30 + f.name.length + f.data.length + localLen (fs.take i)) := by
        omega
      rw [harith]

theorem ents_length (files : List FileInput) :
    (ents files).length = files.length := by
  unfold ents
  rw [assignOffsets_length]
  simp

theorem ents_getD (files : List FileInput) (i : Nat) (h : i < files.length) :
    (ents files).getD i default =
      { (files.map normalizeFile).getD i default with
        local_header_offset :=
          some (localLen ((files.map normalizeFile).take i)) } := by
  unfold ents
  rw [assignOffsets_getD _ _ _ (by simpa using h)]
  simp

theorem flatten_map_split (g : FileComplete → List Nat) (gs : List FileComplete)
    (i : Nat) :
    (gs.map g).flatten = ((gs.take i).map g).flatten ++ ((gs.drop i).map g).flatten := by
  rw [← List.flatten_append, ← List.map_append, List.take_append_drop]

theorem getD_eq_getElem_of_lt (l : List FileComplete) (i : Nat) (h : i < l.length) :
    l.getD i default = l.get ⟨i, h⟩ := by
  simp [List.getD_eq_getElem?_getD, List.getElem?_eq_getElem h]

theorem drop_two_append (A B X : List Nat) (m n : Nat) (hA : A.length = m)
    (hB : B.length = n) : (A ++ (B ++ X)).drop (m + n) = X := by
  rw [← List.append_assoc, List.drop_left' (by rw [List.length_append, hA, hB])]

theorem createZIP_drop_local (files : List FileInput) (i : Nat)
    (h : i < files.length) :
    (createZIP files).drop (localLen ((files.map normalizeFile).take i)) =
      localSeg ((files.map normalizeFile).getD i default)
        ++ ((((files.map normalizeFile).drop (i + 1)).map localSeg).flatten
          ++ (((ents files).map centralSeg).flatten
            ++ endRecord files.length (centralLen (ents files))
                (localLen (files.map normalizeFile)))) := by
  have hlen : i < (files.map normalizeFile).length := by simpa using h
  have hg : (files.map normalizeFile).getD i default =
      (files.map normalizeFile)[i] := by
    simp [List.getD_eq_getElem?_getD, List.getElem?_eq_getElem hlen]
  rw [createZIP_eq, flatten_map_split localSeg (files.map normalizeFile) i,
    List.drop_eq_getElem_cons hlen, List.map_cons, List.flatten_cons, hg]
  simp only [List.append_assoc]
  exact List.drop_left' (flatten_localSeg_length _)

theorem createZIP_drop_central (files : List FileInput) (i : Nat)
    (h : i < files.length) :
    (createZIP files).drop
        (localLen (files.map normalizeFile) + centralLen ((ents files).take i)) =
      centralSeg ((ents files).getD i default)
        ++ ((((ents files).drop (i + 1)).map centralSeg).flatten
          ++ endRecord files.length (centralLen (ents files))
              (localLen (files.map normalizeFile))) := by
  have hlen : i < (ents files).length := by rw [ents_length]; exact h
  have hg : (ents files).getD i default = (ents files)[i] := by
    simp [List.getD_eq_getElem?_getD, List.getElem?_eq_getElem hlen]
  rw [createZIP_eq, flatten_map_split centralSeg (ents files) i,
    List.drop_eq_getElem_cons hlen, List.map_cons, List.flatten_cons, hg]
  simp only [List.append_assoc]
  exact drop_two_append _ _ _ _ _ (flatten_localSeg_length _)
    (flatten_centralSeg_length _)

theorem createZIP_drop_end (files : List FileInput) :
    (createZIP files).drop
        (localLen (files.map normalizeFile) + centralLen (ents files)) =
      endRecord files.length (centralLen (ents files))
        (localLen (files.map normalizeFile)) := by
  rw [createZIP_eq]
  simp only [List.append_assoc]
  exact drop_two_append _ _ _ _ _ (flatten_localSeg_length _)
    (flatten_centralSeg_length _)

theorem localLen_append (a b : List FileComplete) :
    localLen (a ++ b) = localLen a + localLen b := by
  simp [localLen]

theorem localLen_take_succ (fs : List FileComplete) (i : Nat) (h : i < fs.length) :
    localLen (fs.take (i + 1)) =
      localLen (fs.take i) + (30 + (fs.getD i default).name.length
        + (fs.getD i default).data.length) := by
  rw [List.take_succ, List.getElem?_eq_getElem h, localLen_append]
  have : ((some fs[i]).toList : List FileComplete) = [fs[i]] := rfl
  rw [this]
  have hg : fs.getD i default = fs[i] := by
    simp [List.getD_eq_getElem?_getD, List.getElem?_eq_getElem h]
  rw [hg]
  simp [localLen]

/-! ## The directory flag -/

theorem isDirName_iff_getLast (name : List Nat) :
    isDirName name = true ↔ name.getLast? = some 47 := by
  rcases List.eq_nil_or_concat name with hnil | ⟨pre, a, hcat⟩
  · subst hnil
    simp [isDirName]
  · rw [List.concat_eq_append] at hcat
    subst hcat
    have hlen : (pre ++ [a]).length - 1 = pre.length := by
      simp
    have hget : (pre ++ [a]).getD pre.length 0 = a := by
      rw [List.getD_eq_getElem?_getD, List.getElem?_append_right (Nat.le_refl _)]
      simp
    rw [isDirName, hlen, hget, List.getLast?_concat]
    simp

theorem isDirName_iff (name : List Nat) :
    isDirName name = true ↔ ∃ pre, name = pre ++ [47] := by
  rw [isDirName_iff_getLast, List.getLast?_eq_some_iff]

/-! ## Store model of the build's object mutations

`createZIP(files)` receives an array of references to the caller's entry
objects.  To reason about which objects the build mutates, the heap is made
explicit: a store of objects, the caller's array being a list of store
indices.  The normalization `map` allocates one fresh object per entry at
the end of the store, and the phase-1 assignment
`file.local_header_offset = offset_count` is a store update at the fresh
object's index.  Phases 2 and 3 only read. -/

/-- Read an input object's `name`/`data` off the store. -/
def readInput (store : List FileComplete) (i : Nat) : FileInput :=
  ⟨(store.getD i default).name, (store.getD i default).data⟩

/-- The phase-1 loop over the store: each listed object gets the running
offset, which then advances by `30 + name length + data length`. -/
def phase1Store (store : List FileComplete) : List Nat → Nat → List FileComplete
  | [], _ => store
  | i :: rest, off =>
      let f := store.getD i default
      phase1Store (store.set i { f with local_header_offset := some off }) rest
        (off + 30 + f.name.length + f.data.length)

/-- The whole build against an explicit store: the caller's array is the
index list `files`; normalization appends fresh objects to the store and
phase 1 mutates exactly those.  Returns the output bytes together with the
final store. -/
def buildStore (store : List FileComplete) (files : List Nat) :
    List Nat × List FileComplete :=
  let freshObjs := files.map (fun i => normalizeFile (readInput store i))
  let store1 := store ++ freshObjs
  let freshIdx := List.range' store.length files.length
  let store2 := phase1Store store1 freshIdx 0
  (createZIP (files.map (readInput store)), store2)

theorem phase1Store_frame : ∀ (idxs : List Nat) (store : List FileComplete)
    (off j : Nat), (∀ i ∈ idxs, j < i) →
    (phase1Store store idxs off).getD j default = store.getD j default := by
  intro idxs
  induction idxs with
  | nil => intro store off j _; rfl
  | cons i rest ih =>
    intro store off j h
    have hne : i ≠ j := by
      have := h i (List.mem_cons_self i rest)
      omega
    rw [phase1Store, ih _ _ _ (fun x hx => h x (List.mem_cons_of_mem _ hx))]
    simp [List.getD_eq_getElem?_getD, List.getElem?_set_ne hne]

theorem buildStore_frame (store : List FileComplete) (files : List Nat)
    (j : Nat) (h : j < store.length) :
    (buildStore store files).2.getD j default = store.getD j default := by
  unfold buildStore
  rw [phase1Store_frame _ _ _ _ (fun i hi => by
    have := List.mem_range'_1.mp hi
    omega)]
  rw [List.getD_eq_getElem?_getD, List.getElem?_append_left h,
    List.getD_eq_getElem?_getD]

theorem localSeg_update_offset (f : FileComplete) (o : Option Nat) :
    localSeg { f with local_header_offset := o } = localSeg f := rfl

theorem update_offset_name (f : FileComplete) (o : Option Nat) :
    ({ f with local_header_offset := o } : FileComplete).name = f.name := rfl

theorem update_offset_data (f : FileComplete) (o : Option Nat) :
    ({ f with local_header_offset := o } : FileComplete).data = f.data := rfl

theorem update_offset_lho (f : FileComplete) (o : Option Nat) :
    ({ f with local_header_offset := o } : FileComplete).local_header_offset
      = o := rfl

theorem localSeg_sig (f : FileComplete) : readU32 (localSeg f) 0 = 0x04034B50 := by
  unfold localSeg
  rw [readU32_append_left _ _ _
      (by rw [List.length_append, localHeader_length]; omega),
    readU32_append_left _ _ _ (by rw [localHeader_length]; omega),
    localHeader_sig]

/-! ## The claims -/

/-- C3: `calcCRC32` equals the reference reflected CRC-32 with polynomial
`0xEDB88320` on every byte sequence; in particular it returns 0 for empty
input and `0x414FA339` for the 8-bit bytes of
"The quick brown fox jumps over the lazy dog". -/
theorem claim_C3 :
    (∀ data : List Nat, (∀ b ∈ data, b < 256) → calcCRC32 data = crc32Ref data)
      ∧ calcCRC32 [] = 0 ∧ calcCRC32 foxBytes = 0x414FA339 := by
  refine ⟨calcCRC32_eq_ref, by decide, ?_⟩
  set_option maxRecDepth 100000 in decide

/-- C3 witness: the equivalence applied at a concrete byte sequence. -/
theorem claim_C3_witness : calcCRC32 [72, 105, 33] = crc32Ref [72, 105, 33] :=
  claim_C3.1 [72, 105, 33] (by decide)

/-- C4: the claim says the build fails with a typed error before emitting
anything on a directory entry with non-empty data.  `createZIP` has no
failure path at all: on the single entry named "d/" (`[100, 47]`) carrying
the one data byte `[1]`, it emits a complete 103-byte archive
(30 + 2 + 1 local bytes, 46 + 2 central bytes, 22 trailer bytes), with the
payload byte at position 32, right after the local header and name. -/
theorem claim_C4 :
    (createZIP [⟨[100, 47], [1]⟩]).length = 103
      ∧ (createZIP [⟨[100, 47], [1]⟩]).getD 32 0 = 1 := by
  set_option maxRecDepth 100000 in decide

/-- C5: an entry produced by normalization is flagged as a directory iff
its name ends with the path separator `/` (byte 47). -/
theorem claim_C5 (f : FileInput) :
    (normalizeFile f).is_dir = true ↔ ∃ pre, f.name = pre ++ [47] :=
  isDirName_iff f.name

/-- C7: `write4B` stores the four bytes of a value `< 2^32`
least-significant first at `i`, `i+1`, `i+2`, `i+3` (byte `k` is
`value / 256^k % 256`), `write2B` does the same for the low two bytes, and
neither touches any other position or changes the buffer's length. -/
theorem claim_C7 (buf : List Nat) (i v : Nat) (hv : v < 4294967296) :
    (i + 3 < buf.length →
      ((write4B buf i v).length = buf.length
        ∧ (write4B buf i v).getD i 0 = v % 256
        ∧ (write4B buf i v).getD (i + 1) 0 = v / 256 % 256
        ∧ (write4B buf i v).getD (i + 2) 0 = v / 65536 % 256
        ∧ (write4B buf i v).getD (i + 3) 0 = v / 16777216 % 256
        ∧ ∀ j, j < i ∨ i + 3 < j → (write4B buf i v).getD j 0 = buf.getD j 0))
    ∧ (i + 1 < buf.length →
      ((write2B buf i v).length = buf.length
        ∧ (write2B buf i v).getD i 0 = v % 256
        ∧ (write2B buf i v).getD (i + 1) 0 = v / 256 % 256
        ∧ ∀ j, j < i ∨ i + 1 < j → (write2B buf i v).getD j 0 = buf.getD j 0)) := by
  constructor
  · intro h
    exact ⟨write4B_length buf i v,
      write4B_getD_at0 buf i v (by omega),
      write4B_getD_at1 buf i v (by omega),
      write4B_getD_at2 buf i v (by omega),
      write4B_getD_at3 buf i v h,
      fun j hj => write4B_getD_frame buf i v j hj⟩
  · intro h
    exact ⟨write2B_length buf i v,
      write2B_getD_at0 buf i v (by omega),
      write2B_getD_at1 buf i v h,
      fun j hj => write2B_getD_frame buf i v j hj⟩

/-- C7 witness: the writers at a concrete buffer, offset and value. -/
theorem claim_C7_witness :
    (0x01020304 : Nat) < 4294967296
      ∧ (write4B [9, 9, 9, 9, 9, 9] 1 0x01020304).getD 1 0 = 4
      ∧ (write4B [9, 9, 9, 9, 9, 9] 1 0x01020304).getD 4 0 = 1
      ∧ (write4B [9, 9, 9, 9, 9, 9] 1 0x01020304).getD 5 0 = 9
      ∧ (write2B [9, 9, 9, 9, 9, 9] 1 0x01020304).getD 2 0 = 3 := by
  have h := claim_C7 [9, 9, 9, 9, 9, 9] 1 0x01020304 (by decide)
  have h4 := h.1 (by decide)
  have h2 := h.2 (by decide)
  exact ⟨by decide,
    h4.2.1.trans (by decide),
    h4.2.2.2.2.1.trans (by decide),
    (h4.2.2.2.2.2 5 (by omega)).trans (by decide),
    h2.2.2.1.trans (by decide)⟩

/-- C8: the 4-byte external-file-attributes field at byte 38 of the
central-directory header carries the UNIX mode in its high 16 bits —
`0o40755` for directories, `0o100644` for files — and its low 16 bits
(bytes 38–39) are 0, for any entry and any assigned offset. -/
theorem claim_C8 (f : FileInput) (o : Option Nat) :
    readU32 (centralHeader { normalizeFile f with local_header_offset := o }) 38
        = (if (normalizeFile f).is_dir then 0o40755 else 0o100644) * 2 ^ 16
      ∧ readU16
          (centralHeader { normalizeFile f with local_header_offset := o }) 38
        = 0 := by
  by_cases h : (normalizeFile f).is_dir = true
  · have h' : ({ normalizeFile f with local_header_offset := o }
        : FileComplete).is_dir = true := h
    have hx := centralHeader_extAttrs_dir _ h'
    rw [h]
    constructor
    · rw [hx.1]
      norm_num
    · exact hx.2
  · have hb : (normalizeFile f).is_dir = false := by
      revert h
      cases (normalizeFile f).is_dir <;> simp
    have h' : ({ normalizeFile f with local_header_offset := o }
        : FileComplete).is_dir = false := hb
    have hx := centralHeader_extAttrs_file _ h'
    rw [hb]
    constructor
    · rw [hx.1]
      norm_num
    · exact hx.2

/-- C9: the build never mutates the caller's objects: in the store model,
every store cell the caller's array points to is unchanged by `buildStore`
(phase 1's `local_header_offset` assignment hits only the fresh objects the
normalization `map` appended), and the emitted bytes are exactly
`createZIP` of the values read from the caller's entries. -/
theorem claim_C9 (store : List FileComplete) (files : List Nat) (j : Nat)
    (h : j < store.length) :
    (buildStore store files).2.getD j default = store.getD j default
      ∧ (buildStore store files).1 = createZIP (files.map (readInput store)) :=
  ⟨buildStore_frame store files j h, rfl⟩

/-- C9 witness: a one-object store archived through `buildStore` keeps the
caller's object intact. -/
theorem claim_C9_witness :
    (buildStore [⟨[97], [5], 0, false, none⟩] [0]).2.getD 0 default
        = ([⟨[97], [5], 0, false, none⟩] : List FileComplete).getD 0 default
      ∧ (buildStore [⟨[97], [5], 0, false, none⟩] [0]).1
        = createZIP ([0].map (readInput [⟨[97], [5], 0, false, none⟩])) :=
  claim_C9 [⟨[97], [5], 0, false, none⟩] [0] 0 (by decide)

/-- C1: each entry's recorded `local_header_offset` is the running total
`30 + name length + data length` over all earlier entries; that position in
the final output is exactly where the entry's 30-byte local header (its
section starting with signature `0x04034B50`) begins; and, whenever it fits
in 32 bits, the value written in the central-directory header's
local-header-offset field (byte 42) is exactly that position. -/
theorem claim_C1 (files : List FileInput) (i : Nat) (h : i < files.length) :
    ((ents files).getD i default).local_header_offset
        = some (localLen ((files.map normalizeFile).take i))
      ∧ localLen ((files.map normalizeFile).take (i + 1))
          = localLen ((files.map normalizeFile).take i)
            + (30 + ((files.map normalizeFile).getD i default).name.length
              + ((files.map normalizeFile).getD i default).data.length)
      ∧ ((createZIP files).drop
            (localLen ((files.map normalizeFile).take i))).take
            (30 + ((ents files).getD i default).name.length
              + ((ents files).getD i default).data.length)
          = localSeg ((ents files).getD i default)
      ∧ readU32 (localSeg ((ents files).getD i default)) 0 = 0x04034B50
      ∧ (localLen ((files.map normalizeFile).take i) < 4294967296 →
          readU32 (centralHeader ((ents files).getD i default)) 42
            = localLen ((files.map normalizeFile).take i)) := by
  have hfs : i < (files.map normalizeFile).length := by simpa using h
  refine ⟨?_, ?_, ?_, localSeg_sig _, ?_⟩
  · rw [ents_getD files i h, update_offset_lho]
  · exact localLen_take_succ _ i hfs
  · rw [ents_getD files i h, createZIP_drop_local files i h,
      localSeg_update_offset, update_offset_name, update_offset_data]
    exact List.take_left' (localSeg_length _)
  · intro hfit
    rw [ents_getD files i h, centralHeader_offset_field, update_offset_lho,
      Option.getD_some]
    exact Nat.mod_eq_of_lt hfit

/-- C1 witness: in a two-entry archive the second entry's recorded offset is
the first entry's whole local section length, and the central header's
offset field carries it. -/
theorem claim_C1_witness :
    ((ents [⟨[97], [1, 2]⟩, ⟨[98, 47], []⟩]).getD 1 default).local_header_offset
        = some 33
      ∧ readU32
          (centralHeader
            ((ents [⟨[97], [1, 2]⟩, ⟨[98, 47], []⟩]).getD 1 default)) 42
        = 33 := by
  have h := claim_C1 [⟨[97], [1, 2]⟩, ⟨[98, 47], []⟩] 1 (by decide)
  exact ⟨h.1.trans (by decide), (h.2.2.2.2 (by decide)).trans (by decide)⟩

/-- C2: the end-of-central-directory record sits right after the two
sections; both entry-count fields hold the input entry count, the
central-directory-size field holds exactly the phase-2 byte count, and the
central-directory-offset field holds exactly the phase-1 byte count,
whenever those numbers fit their 16/32-bit fields. -/
theorem claim_C2 (files : List FileInput)
    (hn : files.length < 65536)
    (hs : centralLen (ents files) < 4294967296)
    (ho : localLen (files.map normalizeFile) < 4294967296) :
    (createZIP files).drop
        (localLen (files.map normalizeFile) + centralLen (ents files))
      = endRecord files.length (centralLen (ents files))
          (localLen (files.map normalizeFile))
    ∧ readU16 (endRecord files.length (centralLen (ents files))
        (localLen (files.map normalizeFile))) 8 = files.length
    ∧ readU16 (endRecord files.length (centralLen (ents files))
        (localLen (files.map normalizeFile))) 10 = files.length
    ∧ readU32 (endRecord files.length (centralLen (ents files))
        (localLen (files.map normalizeFile))) 12 = centralLen (ents files)
    ∧ readU32 (endRecord files.length (centralLen (ents files))
        (localLen (files.map normalizeFile))) 16
        = localLen (files.map normalizeFile)
    ∧ centralLen (ents files) = (((ents files).map centralSeg).flatten).length
    ∧ localLen (files.map normalizeFile)
        = (((files.map normalizeFile).map localSeg).flatten).length := by
  have hf := endRecord_fields files.length (centralLen (ents files))
    (localLen (files.map normalizeFile))
  exact ⟨createZIP_drop_end files,
    hf.1.trans (Nat.mod_eq_of_lt hn),
    hf.2.1.trans (Nat.mod_eq_of_lt hn),
    hf.2.2.1.trans (Nat.mod_eq_of_lt hs),
    hf.2.2.2.trans (Nat.mod_eq_of_lt ho),
    (flatten_centralSeg_length _).symm,
    (flatten_localSeg_length _).symm⟩

/-- C2 witness: a one-entry archive's trailer reports one entry. -/
theorem claim_C2_witness :
    readU16
        (endRecord ([⟨[97], []⟩] : List FileInput).length
          (centralLen (ents [⟨[97], []⟩]))
          (localLen ([⟨[97], []⟩].map normalizeFile))) 8 = 1 := by
  have h := claim_C2 [⟨[97], []⟩] (by decide) (by decide) (by decide)
  exact h.2.1.trans (by decide)

/-- C6: a directory entry's CRC-32, compressed-size and uncompressed-size
fields are all 0 both in its local file header (bytes 14, 18, 22) and in
its central-directory header (bytes 16, 20, 24), whatever offset phase 1
assigned to it. -/
theorem claim_C6 (f : FileInput) (o : Option Nat)
    (h : (normalizeFile f).is_dir = true) :
    readU32 (localHeader { normalizeFile f with local_header_offset := o })
        14 = 0
      ∧ readU32 (localHeader { normalizeFile f with local_header_offset := o })
          18 = 0
      ∧ readU32 (localHeader { normalizeFile f with local_header_offset := o })
          22 = 0
      ∧ readU32 (centralHeader { normalizeFile f with local_header_offset := o })
          16 = 0
      ∧ readU32 (centralHeader { normalizeFile f with local_header_offset := o })
          20 = 0
      ∧ readU32 (centralHeader { normalizeFile f with local_header_offset := o })
          24 = 0 := by
  have h' : ({ normalizeFile f with local_header_offset := o }
      : FileComplete).is_dir = true := h
  have hl := localHeader_dir_fields _ h'
  have hc := centralHeader_dir_fields _ h'
  exact ⟨hl.1, hl.2.1, hl.2.2, hc.1, hc.2.1, hc.2.2⟩

/-- C6 witness: the "folder/" entry's size and CRC fields are 0. -/
theorem claim_C6_witness :
    readU32
        (localHeader
          { normalizeFile ⟨[102, 47], []⟩ with local_header_offset := some 0 })
        14 = 0
      ∧ readU32
          (centralHeader
            { normalizeFile ⟨[102, 47], []⟩ with local_header_offset := some 0 })
          16 = 0 := by
  have h := claim_C6 ⟨[102, 47], []⟩ (some 0) (by decide)
  exact ⟨h.1, h.2.2.2.1⟩

/-- C10: an entry whose name ends in `/` but whose data is non-empty does
not make the build fail; its data bytes are still emitted right after its
name in the local file section, the running offset advances by their
length, and the entry's CRC/size header fields stay 0. -/
theorem claim_C10 (files : List FileInput) (i : Nat) (h : i < files.length)
    (hdir : ((files.map normalizeFile).getD i default).is_dir = true)
    (hdata : ((files.map normalizeFile).getD i default).data ≠ []) :
    (((createZIP files).drop
          (localLen ((files.map normalizeFile).take i))).drop
          (30 + ((files.map normalizeFile).getD i default).name.length)).take
          ((files.map normalizeFile).getD i default).data.length
        = ((files.map normalizeFile).getD i default).data
      ∧ localLen ((files.map normalizeFile).take (i + 1))
          = localLen ((files.map normalizeFile).take i)
            + (30 + ((files.map normalizeFile).getD i default).name.length
              + ((files.map normalizeFile).getD i default).data.length)
      ∧ readU32 (localHeader ((files.map normalizeFile).getD i default)) 14 = 0
      ∧ readU32 (localHeader ((files.map normalizeFile).getD i default)) 18 = 0
      ∧ readU32 (localHeader ((files.map normalizeFile).getD i default)) 22 = 0
      := by
  have hfs : i < (files.map normalizeFile).length := by simpa using h
  have hl := localHeader_dir_fields _ hdir
  refine ⟨?_, localLen_take_succ _ i hfs, hl.1, hl.2.1, hl.2.2⟩
  rw [createZIP_drop_local files i h]
  simp only [localSeg, List.append_assoc]
  rw [drop_two_append _ _ _ _ _ (localHeader_length _) rfl]
  exact List.take_left' rfl

/-- C10 witness: a "d/" entry carrying one data byte still advances the
offset by 33 = 30 + 2 + 1 and keeps its size fields 0. -/
theorem claim_C10_witness :
    localLen (([⟨[100, 47], [9]⟩].map normalizeFile).take 1) = 33
      ∧ readU32
          (localHeader (([⟨[100, 47], [9]⟩].map normalizeFile).getD 0 default))
          18 = 0 := by
  have h := claim_C10 [⟨[100, 47], [9]⟩] 0 (by decide) (by decide) (by decide)
  exact ⟨h.2.1.trans (by decide), h.2.2.2.1⟩

end ZipTool
